import Mathlib

/-!
Verification of the ModcrabFS core (`modcrabfs/src/tree.rs`,
`modcrabfs/src/persistence.rs`, `modcrabfs/src/filesystem.rs`) against its
natural-language specification.

The Rust code is shallowly embedded: OS paths become lists of byte
components, the petgraph `StableDiGraph` of the `VirtualFileTree` becomes
association lists of nodes and labeled edges, and every fallible or
I/O-touching operation is modeled as an `Option`-valued (or custom result
valued) pure function whose branching mirrors the Rust control flow.
Rust panics (an `assert!`, an `unwrap` on a vacant graph index) are modeled
as failure outcomes, as noted at each definition.
-/

/-- Path components are raw OS byte strings, modeled as lists of byte values. -/
abbrev Component := List Nat

/-- ASCII case folding of a single byte, as done by Rust's
`to_ascii_lowercase`: only the 7-bit letters `A`..`Z` (65..90) change, every
other byte passes through. -/
def foldByte (b : Nat) : Nat :=
  if 65 ≤ b ∧ b ≤ 90 then b + 32 else b

/-- Folding a whole path component byte by byte
(`OsStr::to_ascii_lowercase`). -/
def foldComponent (c : Component) : Component :=
  c.map foldByte

/-- An OS path: an absolute-or-relative flag (`Path::has_root`) plus the
sequence of normal components, as produced by `Path::components()`. -/
structure OsPath where
  absolute : Bool
  components : List Component
deriving DecidableEq, Repr

/-- `Path::parent`: drop the final component; `none` for the root path `/`
and for the empty path (both have no components). -/
def OsPath.parent (p : OsPath) : Option OsPath :=
  match p.components with
  | [] => none
  | _ :: _ => some ⟨p.absolute, p.components.dropLast⟩

/-- `Path::file_name`: the final component, if any. -/
def OsPath.fileName (p : OsPath) : Option Component :=
  p.components.getLast?

/-- The virtual root path `/`. -/
def rootPath : OsPath := ⟨true, []⟩

/-- The Linux file kinds used by `fuse_mt::FileType`. -/
inductive FileType where
  | Directory
  | RegularFile
  | Symlink
  | BlockDevice
  | CharDevice
  | NamedPipe
  | Socket
deriving DecidableEq, Repr

/-- Payload of one `VirtualFileTree` node (`VirtualFileData`): the real
backing path, the file kind, and the root marker. -/
structure VirtualFileData where
  path : OsPath
  kind : FileType
  is_root : Bool
deriving DecidableEq, Repr

/-- The `VirtualFileTree` itself: the petgraph `StableDiGraph` is embedded
as an association list of live nodes (index, payload), a list of directed
labeled edges (source, folded label, target), the next fresh node index
(petgraph hands out increasing indices while no index is ever reused here,
since the operations we model only add fresh nodes), and the table mapping
directory handles to node indices. The root is the first node ever added and
always has index 0 (`NodeIndex::new(0)` in the source). -/
structure VirtualFileTree where
  nodes : List (Nat × VirtualFileData)
  edges : List (Nat × Component × Nat)
  nextId : Nat
  handles : List (Nat × Nat)
deriving DecidableEq, Repr

/-- Payload of the node with a given index, if that node is live. -/
def lookupNode (t : VirtualFileTree) (i : Nat) : Option VirtualFileData :=
  (t.nodes.find? (fun q => q.1 == i)).map (fun q => q.2)

/-- Node index an open handle refers to, if the handle is live. -/
def lookupHandle (t : VirtualFileTree) (h : Nat) : Option Nat :=
  (t.handles.find? (fun q => q.1 == h)).map (fun q => q.2)

/-- The edge lookup done inside `find_index` and `update_child`:
`self.graph.edges(i).find(|e| e.weight() == &c)`, returning the target. -/
def edgeTarget (edges : List (Nat × Component × Nat)) (i : Nat) (c : Component) : Option Nat :=
  (edges.find? (fun e => e.1 == i && e.2.1 == c)).map (fun e => e.2.2)

/-- The component walk inside `VirtualFileTree::find_index`: starting from a
node index, follow one already-folded component per step; the first missing
edge aborts with `none`. -/
def walk (edges : List (Nat × Component × Nat)) (i : Nat) : List Component → Option Nat
  | [] => some i
  | c :: cs =>
    match edgeTarget edges i c with
    | none => none
    | some j => walk edges j cs

/-- `VirtualFileTree::find_index`: strip a leading root separator (which
leaves the component list unchanged), fold every component, and walk from
the root index 0. Note that the source never checks that index 0 is live, so
the root path resolves to index 0 unconditionally. -/
def find_index (t : VirtualFileTree) (p : OsPath) : Option Nat :=
  walk t.edges 0 (p.components.map foldComponent)

/-- `VirtualFileTree::translate_path`: the real path of the resolved node.
The source indexes `graph[idx]`, which panics for a vacant index; that
(unreachable for live lookups) panic is modeled as `none`. -/
def translate_path (t : VirtualFileTree) (p : OsPath) : Option OsPath :=
  (find_index t p).bind (fun i => (lookupNode t i).map (fun d => d.path))

/-- `VirtualFileTree::contains`. -/
def contains (t : VirtualFileTree) (p : OsPath) : Bool :=
  (find_index t p).isSome

/-- `VirtualFileTree::is_dir`: false when the path does not resolve. The
vacant-index panic of `graph[idx]` is modeled as `false`. -/
def is_dir (t : VirtualFileTree) (p : OsPath) : Bool :=
  match find_index t p with
  | none => false
  | some i =>
    match lookupNode t i with
    | some d => d.kind == FileType.Directory
    | none => false

/-- `VirtualFileTree::new(real_root)`: the `assert!(real_root.is_dir())` is
modeled by the `isDir` argument (the result of the `is_dir` query on the
real filesystem); a failed assertion (a Rust panic, so `new` never returns
a tree) is modeled as `none`. On success the graph holds the single root
node, of kind Directory, with `is_root` set, at index 0. -/
def tree_new (real_root : OsPath) (isDir : Bool) : Option VirtualFileTree :=
  if isDir then
    some { nodes := [(0, { path := real_root, kind := FileType.Directory, is_root := true })],
           edges := [], nextId := 1, handles := [] }
  else
    none

/-- Replace the payload of node `i` in place (`self.graph[old] = weight`):
the node keeps its index and all incident edges. -/
def replaceAt (nodes : List (Nat × VirtualFileData)) (i : Nat) (w : VirtualFileData) :
    List (Nat × VirtualFileData) :=
  nodes.map (fun q => if q.1 == i then (q.1, w) else q)

/-- `VirtualFileTree::update_child`: the label is the folded basename of the
payload's real path. If the parent already has an edge with that label, the
target's payload is overwritten in place; otherwise a fresh node and edge
are added (petgraph iterates a node's edges newest first, hence the cons).
The `unwrap` on a payload path without a basename is a Rust panic, modeled
as a no-op returning index 0; well-formed callers never reach it. -/
def update_child (t : VirtualFileTree) (parent : Nat) (w : VirtualFileData) :
    Nat × VirtualFileTree :=
  match w.path.fileName with
  | none => (0, t)
  | some base =>
    match edgeTarget t.edges parent (foldComponent base) with
    | some old => (old, { t with nodes := replaceAt t.nodes old w })
    | none =>
      (t.nextId, { t with
        nodes := (t.nextId, w) :: t.nodes,
        edges := (parent, foldComponent base, t.nextId) :: t.edges,
        nextId := t.nextId + 1 })

/-- `VirtualFileTree::map_file`: add one child under the parent of `virt`,
with the given payload. The `kind` argument stands for the result of the
`query_file_type(real)` stat on the real file. Fails (`none`) on a path
without a parent (invalid-input) or an unresolved parent (not-found). -/
def map_file (t : VirtualFileTree) (virt real : OsPath) (kind : FileType) :
    Option VirtualFileTree :=
  match virt.parent with
  | none => none
  | some par =>
    match find_index t par with
    | none => none
    | some root => some (update_child t root { path := real, kind := kind, is_root := false }).2

/-- One pass of the reachability closure: scan every edge once and append
the target of each edge whose source is already reached. -/
def reachStep (edges : List (Nat × Component × Nat)) (s : List Nat) : List Nat :=
  edges.foldl
    (fun acc e => if e.1 ∈ acc ∧ e.2.2 ∉ acc then acc ++ [e.2.2] else acc) s

/-- Iterate `reachStep` a fixed number of times. -/
def reachIter (edges : List (Nat × Component × Nat)) : Nat → List Nat → List Nat
  | 0, s => s
  | n + 1, s => reachIter edges n (reachStep edges s)

/-- Node indices reachable from the root index 0
(`has_path_connecting(&graph, root, node, None)` for each node). A node at
distance `d` from the root is found after at most `d` passes, and every
distance is bounded by the number of edges, so the fuel below computes the
full reachable set. -/
def reachableFrom (t : VirtualFileTree) : List Nat :=
  reachIter t.edges (t.edges.length + 1) [0]

/-- `VirtualFileTree::clear_orphans`: keep exactly the nodes reachable from
the root index, dropping the edges incident to removed nodes
(`retain_nodes` prunes in increasing index order, but pruning a node that is
unreachable from the root never changes reachability of the others, so the
batch filter below computes the same graph). -/
def clear_orphans (t : VirtualFileTree) : VirtualFileTree :=
  { t with
    nodes := t.nodes.filter (fun q => decide (q.1 ∈ reachableFrom t)),
    edges := t.edges.filter
      (fun e => decide (e.1 ∈ reachableFrom t) && decide (e.2.2 ∈ reachableFrom t)) }

/-- Drop one node and its incident edges (`StableDiGraph::remove_node`). -/
def removeNodeAndEdges (t : VirtualFileTree) (i : Nat) : VirtualFileTree :=
  { t with
    nodes := t.nodes.filter (fun q => !(q.1 == i)),
    edges := t.edges.filter (fun e => !(e.1 == i) && !(e.2.2 == i)) }

/-- `VirtualFileTree::remove_file`: resolve the path, remove that node, run
orphan pruning, and hand back the removed payload. Not-found when the path
does not resolve; the `unwrap` panic on removing an already-vacant index
(reachable only through a stale root index) is also modeled as `none`. -/
def remove_file (t : VirtualFileTree) (p : OsPath) :
    Option (VirtualFileData × VirtualFileTree) :=
  match find_index t p with
  | none => none
  | some i =>
    match lookupNode t i with
    | none => none
    | some d => some (d, clear_orphans (removeNodeAndEdges t i))

/-- `VirtualFileTree::move_file`: remove the source node first, then resolve
the parent of the destination and reinstall the removed payload there with
`update_child`. The boolean is the success flag; the tree component is the
state after the call, which on a late failure has already lost the source
node (the source mutates `self` before the failing lookup). Note that
`update_child` relabels with the folded basename of the payload's real
path, not with the final component of the destination path. -/
def move_file (t : VirtualFileTree) (old_path new_path : OsPath) :
    Bool × VirtualFileTree :=
  match remove_file t old_path with
  | none => (false, t)
  | some (d, t1) =>
    match new_path.parent with
    | none => (false, t1)
    | some par =>
      match find_index t1 par with
      | none => (false, t1)
      | some np => (true, (update_child t1 np d).2)

/-- `VirtualFileTree::open_dir`: resolve the path and record a fresh handle
for it. The random draw of the 64-bit handle is modeled by the `h`
argument: the call in which the generator produced an unused value `h`
inserts `h`; a collision (the retry branch of the source loop) is modeled
as `none`. No check that the node is a directory is performed, mirroring
the source. -/
def open_dir (t : VirtualFileTree) (p : OsPath) (h : Nat) :
    Option (Nat × VirtualFileTree) :=
  match find_index t p with
  | none => none
  | some dir =>
    match lookupHandle t h with
    | some _ => none
    | none => some (h, { t with handles := (h, dir) :: t.handles })

/-- `VirtualFileTree::close_dir`: drop the handle; silently a no-op for an
unknown handle. -/
def close_dir (t : VirtualFileTree) (h : Nat) : VirtualFileTree :=
  { t with handles := t.handles.filter (fun q => !(q.1 == h)) }

/-- `VirtualFileTree::is_dir_open`. -/
def is_dir_open (t : VirtualFileTree) (h : Nat) : Bool :=
  (lookupHandle t h).isSome

/-- Result of `view_dir`: `Err(NotFound)`, `Err(InvalidInput)`, or the list
of `(basename, kind)` entries. -/
inductive VfsResult where
  | notFound
  | invalidInput
  | entries (l : List (Component × FileType))
deriving DecidableEq, Repr

/-- One `DirectoryEntry` for a child node: its real path's basename
(original case preserved) and its kind. `none` covers both the
`Err(InvalidInput)` on a basename-less real path and the (unreachable for
well-formed trees) vacant-index panic of `graph[n]`. -/
def childEntry (t : VirtualFileTree) (n : Nat) : Option (Component × FileType) :=
  match lookupNode t n with
  | none => none
  | some c =>
    match c.path.fileName with
    | none => none
    | some b => some (b, c.kind)

/-- Collect the entries of all children, aborting on the first failure. -/
def entriesFor (t : VirtualFileTree) : List Nat → Option (List (Component × FileType))
  | [] => some []
  | n :: ns =>
    match childEntry t n with
    | none => none
    | some e => (entriesFor t ns).map (fun l => e :: l)

/-- Targets of the outgoing edges of a node (`graph.neighbors(dir)`). -/
def childrenOf (t : VirtualFileTree) (dir : Nat) : List Nat :=
  (t.edges.filter (fun e => e.1 == dir)).map (fun e => e.2.2)

/-- `VirtualFileTree::view_dir`: not-found for an unknown handle, otherwise
the `(basename, kind)` listing of the recorded node's children. -/
def view_dir (t : VirtualFileTree) (h : Nat) : VfsResult :=
  match lookupHandle t h with
  | none => VfsResult.notFound
  | some dir =>
    match entriesFor t (childrenOf t dir) with
    | none => VfsResult.invalidInput
    | some l => VfsResult.entries l

/-- `VirtualFileTransformation` (`persistence.rs`): a persisted, replayable
edit to the visible namespace. -/
inductive VirtualFileTransformation where
  | Deletion (target : OsPath)
  | Relocation (src dst : OsPath)
deriving DecidableEq, Repr

/-- `VirtualFileTransformation::apply`: dispatch to `remove_file` or
`move_file`; the boolean is the success flag and the tree is the state
after the call (on a failing `move_file` the source may already have
mutated the tree). -/
def VirtualFileTransformation.apply (tr : VirtualFileTransformation)
    (t : VirtualFileTree) : Bool × VirtualFileTree :=
  match tr with
  | .Deletion target =>
    match remove_file t target with
    | none => (false, t)
    | some (_, t') => (true, t')
  | .Relocation src dst => move_file t src dst

/-- `VirtualFileTransformation::is_valid`, evaluated against the
pre-application tree. -/
def VirtualFileTransformation.is_valid (tr : VirtualFileTransformation)
    (t : VirtualFileTree) : Bool :=
  match tr with
  | .Deletion target => contains t target
  | .Relocation src dst => contains t src && !(contains t dst)

/-- State of the on-disk cache file: absent, present but undecodable by the
binary codec, or a decodable stored list. -/
inductive CacheFile where
  | absent
  | corrupt
  | stored (l : List VirtualFileTransformation)
deriving DecidableEq, Repr

/-- The error kinds `read_cache` can produce: `NotFound` from `fs::read` on
an absent file, `InvalidData` from a failed decode. -/
inductive ReadErr where
  | notFound
  | invalidData
deriving DecidableEq, Repr

/-- Result of loading the cache list. -/
inductive ReadResult where
  | failure (e : ReadErr)
  | success (l : List VirtualFileTransformation)
deriving DecidableEq, Repr

/-- `ModcrabFS::read_cache`: read plus decode of the cache file. -/
def read_cache : CacheFile → ReadResult
  | CacheFile.absent => ReadResult.failure ReadErr.notFound
  | CacheFile.corrupt => ReadResult.failure ReadErr.invalidData
  | CacheFile.stored l => ReadResult.success l

/-- The load step at the top of `ModcrabFS::apply_cache`: both a `NotFound`
and an `InvalidData` error are recovered as the empty list. -/
def apply_cache_load (f : CacheFile) : ReadResult :=
  match read_cache f with
  | ReadResult.success v => ReadResult.success v
  | ReadResult.failure ReadErr.notFound => ReadResult.success []
  | ReadResult.failure ReadErr.invalidData => ReadResult.success []

/-- The load step inside `ModcrabFS::transform`: only a `NotFound` error is
recovered as the empty list; every other error is propagated. -/
def transform_load (f : CacheFile) : ReadResult :=
  match read_cache f with
  | ReadResult.success v => ReadResult.success v
  | ReadResult.failure ReadErr.notFound => ReadResult.success []
  | ReadResult.failure e => ReadResult.failure e

/-- Apply a list of transformations in order, aborting on the first
failure (the `?` inside the `apply_cache` loop). -/
def applyAll : List VirtualFileTransformation → VirtualFileTree → Option VirtualFileTree
  | [], t => some t
  | tr :: rest, t =>
    match tr.apply t with
    | (true, t') => applyAll rest t'
    | (false, _) => none

/-- `ModcrabFS::apply_cache`: load (recovering absent and undecodable files
as empty), retain exactly the entries valid against the given tree, apply
the retained entries in order, and on success persist the retained list.
`none` models the propagated error of a failing apply, in which case
`update_cache` is never reached and the file keeps its previous content. -/
def apply_cache (t : VirtualFileTree) (f : CacheFile) :
    Option (VirtualFileTree × CacheFile) :=
  match apply_cache_load f with
  | ReadResult.failure _ => none
  | ReadResult.success cached =>
    match applyAll (cached.filter (fun tr => tr.is_valid t)) t with
    | none => none
    | some t' => some (t', CacheFile.stored (cached.filter (fun tr => tr.is_valid t)))

/-- `ModcrabFS::transform`: apply one transformation, then load the current
list (recovering only an absent file), append, and persist. `none` models
any propagated error, in which case the file keeps its previous content. -/
def transform (t : VirtualFileTree) (f : CacheFile)
    (tr : VirtualFileTransformation) : Option (VirtualFileTree × CacheFile) :=
  match tr.apply t with
  | (false, _) => none
  | (true, t') =>
    match transform_load f with
    | ReadResult.failure _ => none
    | ReadResult.success cached => some (t', CacheFile.stored (cached ++ [tr]))

/-- The action a path-based attribute callback decides on, before any
syscall result comes back: the early not-supported rejection, the
propagated not-found of a failed path translation, a direct syscall on a
file descriptor, a shadow-channel operation on the real path, or a direct
syscall on the real path. -/
inductive PathAction where
  | notSupported
  | errNotFound
  | syscallFd (fh : Nat)
  | shadowOp (real : OsPath)
  | syscallPath (real : OsPath)
deriving DecidableEq, Repr

/-- Dispatch of `ModcrabFS::chmod`: reject VFT directories up front with
not-supported, then go by file descriptor, shadow channel, or direct
syscall on the translated real path. `shadowing` stands for
`is_shadowing`, the prefix test against the shadowed mountpoint. -/
def chmod_decision (t : VirtualFileTree) (shadowing : OsPath → Bool)
    (p : OsPath) (fh : Option Nat) : PathAction :=
  if is_dir t p then PathAction.notSupported
  else
    match fh with
    | some fd => PathAction.syscallFd fd
    | none =>
      match translate_path t p with
      | none => PathAction.errNotFound
      | some real =>
        if shadowing real then PathAction.shadowOp real else PathAction.syscallPath real

/-- Dispatch of `ModcrabFS::chown`: identical shape to `chmod`, including
the up-front directory rejection. -/
def chown_decision (t : VirtualFileTree) (shadowing : OsPath → Bool)
    (p : OsPath) (fh : Option Nat) : PathAction :=
  if is_dir t p then PathAction.notSupported
  else
    match fh with
    | some fd => PathAction.syscallFd fd
    | none =>
      match translate_path t p with
      | none => PathAction.errNotFound
      | some real =>
        if shadowing real then PathAction.shadowOp real else PathAction.syscallPath real

/-- Dispatch of `ModcrabFS::utimens`: identical shape to `chmod`, including
the up-front directory rejection. -/
def utimens_decision (t : VirtualFileTree) (shadowing : OsPath → Bool)
    (p : OsPath) (fh : Option Nat) : PathAction :=
  if is_dir t p then PathAction.notSupported
  else
    match fh with
    | some fd => PathAction.syscallFd fd
    | none =>
      match translate_path t p with
      | none => PathAction.errNotFound
      | some real =>
        if shadowing real then PathAction.shadowOp real else PathAction.syscallPath real

/-- Dispatch of `ModcrabFS::truncate`: unlike the three callbacks above, the
source performs no `is_dir` check, going straight to the descriptor /
shadow / direct-syscall dispatch. -/
def truncate_decision (t : VirtualFileTree) (shadowing : OsPath → Bool)
    (p : OsPath) (fh : Option Nat) : PathAction :=
  match fh with
  | some fd => PathAction.syscallFd fd
  | none =>
    match translate_path t p with
    | none => PathAction.errNotFound
    | some real =>
      if shadowing real then PathAction.shadowOp real else PathAction.syscallPath real

/-- Error exits of `ModcrabFS::new`, in source order. -/
inductive NewErr where
  | emptyOverlay
  | canonFail
  | selfMount
  | treeAssert
  | cacheCanonFail
  | shadowFail
  | mapFail
  | cacheFail
deriving DecidableEq, Repr

/-- Result of `ModcrabFS::new`: an error, or the constructed tree together
with the cache file rewritten by `apply_cache`. -/
inductive NewResult where
  | failure (e : NewErr)
  | success (t : VirtualFileTree) (f : CacheFile)
deriving DecidableEq, Repr

/-- Environment abstracting the I/O a construction touches: `canon` is
`Path::canonicalize` (`none` on failure), `isDirQ` the `is_dir` query that
feeds the `VirtualFileTree::new` assertion, `canonCacheOk` the
canonicalization of the cache path, `shadowOk` the opening of the shadow
directory, `readLayer` the reading and mapping of one overlay layer
(`map_directory`, whose directory reads can fail), and `file` the cache
file content found on disk. -/
structure NewEnv where
  canon : OsPath → Option OsPath
  isDirQ : OsPath → Bool
  canonCacheOk : Bool
  shadowOk : Bool
  readLayer : OsPath → VirtualFileTree → Option VirtualFileTree
  file : CacheFile

/-- The `for layer in overlay ... filter_map(canonicalize().ok())` loop of
`ModcrabFS::new`: a layer whose canonicalization fails is silently skipped;
a failing `map_directory` aborts. -/
def mapLayers (env : NewEnv) : List OsPath → VirtualFileTree → Option VirtualFileTree
  | [], t => some t
  | l :: ls, t =>
    match env.canon l with
    | none => mapLayers env ls t
    | some cl =>
      match env.readLayer cl t with
      | none => none
      | some t' => mapLayers env ls t'

/-- `ModcrabFS::new(mountpoint, cache, overlay)`, with every failure exit in
source order: pop the last overlay entry as the surface (error on an empty
list) and canonicalize it; canonicalize the mountpoint and reject equality
with the surface; build the tree on the surface (the `is_dir` assertion);
canonicalize the cache path; open the shadow directory; map the remaining
layers bottom to top; finally run `apply_cache`. The creation of a missing
cache file ignores its result in the source and needs no modeling. -/
def modcrabfs_new (env : NewEnv) (mountpoint : OsPath) (overlay : List OsPath) :
    NewResult :=
  match overlay.getLast? with
  | none => NewResult.failure NewErr.emptyOverlay
  | some rawSurface =>
    match env.canon rawSurface with
    | none => NewResult.failure NewErr.canonFail
    | some surface =>
      match env.canon mountpoint with
      | none => NewResult.failure NewErr.canonFail
      | some mnt =>
        if mnt = surface then NewResult.failure NewErr.selfMount
        else
          match tree_new surface (env.isDirQ surface) with
          | none => NewResult.failure NewErr.treeAssert
          | some t0 =>
            if env.canonCacheOk then
              if env.shadowOk then
                match mapLayers env overlay.dropLast t0 with
                | none => NewResult.failure NewErr.mapFail
                | some t1 =>
                  match apply_cache t1 env.file with
                  | none => NewResult.failure NewErr.cacheFail
                  | some (t2, f2) => NewResult.success t2 f2
              else NewResult.failure NewErr.shadowFail
            else NewResult.failure NewErr.cacheCanonFail

/-- One mutating call of the sequences quantified over by the root-safety
property: a `remove_file` or a `move_file`. -/
inductive TreeOp where
  | removeOp (p : OsPath)
  | moveOp (src dst : OsPath)
deriving DecidableEq, Repr

/-- The path whose node a `TreeOp` removes: the argument of `remove_file`,
or the source argument of `move_file`. -/
def TreeOp.src : TreeOp → OsPath
  | .removeOp p => p
  | .moveOp s _ => s

/-- The tree state after one call; a failing call leaves whatever state the
call itself left behind (`remove_file` fails without mutating, `move_file`
can mutate before failing). -/
def applyOp (t : VirtualFileTree) : TreeOp → VirtualFileTree
  | .removeOp p =>
    match remove_file t p with
    | none => t
    | some (_, t') => t'
  | .moveOp s d => (move_file t s d).2

/-- The tree state after a whole sequence of calls. -/
def applyOps (t : VirtualFileTree) (ops : List TreeOp) : VirtualFileTree :=
  ops.foldl applyOp t

/-- The root node is live at index 0 and carries the `is_root` flag. -/
def rootPresent (t : VirtualFileTree) : Bool :=
  match lookupNode t 0 with
  | some d => d.is_root
  | none => false

/-- Well-formedness facts about the root that every tree built by the
public constructors satisfies: the root is live at index 0 with its flag
set, no edge points back at index 0 (so the root is nobody's child), and
index 0 is never handed out again as a fresh index. -/
def RootSafe (t : VirtualFileTree) : Prop :=
  rootPresent t = true ∧ (∀ e ∈ t.edges, e.2.2 ≠ 0) ∧ 0 < t.nextId

instance (t : VirtualFileTree) : Decidable (RootSafe t) := by
  unfold RootSafe
  exact instDecidableAnd

theorem find?_filter_of_key {α : Type} (l : List (Nat × α)) (q : Nat × α → Bool)
    (k : Nat) (h : ∀ x ∈ l, x.1 = k → q x = true) :
    (l.filter q).find? (fun x => x.1 == k) = l.find? (fun x => x.1 == k) := by
  induction l with
  | nil => rfl
  | cons a l ih =>
    by_cases hk : a.1 = k
    · have hq : q a = true := h a (List.mem_cons_self a l) hk
      rw [List.filter_cons, if_pos hq, List.find?_cons, List.find?_cons]
      simp only [hk, beq_self_eq_true]
    · have hbeq : (a.1 == k) = false := by simp [hk]
      have htail : (l.filter q).find? (fun x => x.1 == k) = l.find? (fun x => x.1 == k) :=
        ih (fun x hx => h x (List.mem_cons_of_mem a hx))
      cases hqa : q a with
      | true =>
        rw [List.filter_cons, if_pos hqa, List.find?_cons, List.find?_cons, hbeq]
        exact htail
      | false =>
        rw [List.filter_cons, if_neg (by simp [hqa]), List.find?_cons, hbeq]
        exact htail

theorem find?_map_keyed {α : Type} (l : List (Nat × α)) (f : Nat × α → Nat × α)
    (k : Nat) (hf : ∀ x, (f x).1 = x.1) :
    (l.map f).find? (fun x => x.1 == k) = Option.map f (l.find? (fun x => x.1 == k)) := by
  induction l with
  | nil => rfl
  | cons a l ih =>
    rw [List.map_cons, List.find?_cons, List.find?_cons, hf a]
    cases hbeq : (a.1 == k) with
    | true => rfl
    | false => exact ih

theorem mem_reachStep {edges : List (Nat × Component × Nat)} {s : List Nat}
    {x : Nat} (hx : x ∈ s) : x ∈ reachStep edges s := by
  unfold reachStep
  induction edges generalizing s with
  | nil => exact hx
  | cons e es ih =>
    rw [List.foldl_cons]
    by_cases hc : e.1 ∈ s ∧ e.2.2 ∉ s
    · exact ih (by rw [if_pos hc]; exact List.mem_append_left _ hx)
    · exact ih (by rw [if_neg hc]; exact hx)

theorem mem_reachIter {edges : List (Nat × Component × Nat)} {s : List Nat}
    {x : Nat} (n : Nat) (hx : x ∈ s) : x ∈ reachIter edges n s := by
  induction n generalizing s with
  | zero => exact hx
  | succ n ih => exact ih (mem_reachStep hx)

theorem zero_mem_reachableFrom (t : VirtualFileTree) : 0 ∈ reachableFrom t :=
  mem_reachIter _ (List.mem_singleton.mpr rfl)

theorem edgeTarget_mem {edges : List (Nat × Component × Nat)} {i j : Nat}
    {c : Component} (h : edgeTarget edges i c = some j) :
    ∃ e ∈ edges, e.2.2 = j := by
  unfold edgeTarget at h
  rcases Option.map_eq_some'.mp h with ⟨e, he, hej⟩
  exact ⟨e, List.mem_of_find?_eq_some he, hej⟩

theorem walk_ne_root {edges : List (Nat × Component × Nat)}
    (hroot : ∀ e ∈ edges, e.2.2 ≠ 0) :
    ∀ (cs : List Component) (i : Nat), cs ≠ [] → walk edges i cs ≠ some 0 := by
  intro cs
  induction cs with
  | nil => intro i hne; exact absurd rfl hne
  | cons c cs ih =>
    intro i _
    rw [walk]
    cases het : edgeTarget edges i c with
    | none => simp
    | some j =>
      have hj : j ≠ 0 := by
        rcases edgeTarget_mem het with ⟨e, hmem, hej⟩
        exact hej ▸ hroot e hmem
      cases cs with
      | nil => simpa [walk] using hj
      | cons c' cs' => exact ih j (by simp)

theorem find_index_ne_root {t : VirtualFileTree} {p : OsPath}
    (hwf : RootSafe t) (hc : p.components ≠ []) : find_index t p ≠ some 0 := by
  have hmap : p.components.map foldComponent ≠ [] := by
    simpa using hc
  exact walk_ne_root hwf.2.1 _ 0 hmap

theorem lookupNode_eq_of_nodes_filter {t t' : VirtualFileTree}
    {q : Nat × VirtualFileData → Bool} (hn : t'.nodes = t.nodes.filter q)
    (h : ∀ x ∈ t.nodes, x.1 = 0 → q x = true) :
    lookupNode t' 0 = lookupNode t 0 := by
  unfold lookupNode
  rw [hn, find?_filter_of_key _ _ _ h]

theorem find?_replaceAt_ne {nodes : List (Nat × VirtualFileData)} {old : Nat}
    {w : VirtualFileData} {k : Nat} (hne : k ≠ old) :
    (replaceAt nodes old w).find? (fun x => x.1 == k) =
      nodes.find? (fun x => x.1 == k) := by
  unfold replaceAt
  rw [find?_map_keyed _ _ _ (fun x => by by_cases hx : x.1 = old <;> simp [hx])]
  cases hfind : nodes.find? (fun x => x.1 == k) with
  | none => rfl
  | some x =>
    have hx : x.1 = k := by
      have := List.find?_some hfind
      simpa using this
    simp [hx, hne]

theorem rootSafe_removed_tree {t : VirtualFileTree} {i : Nat} (hi : i ≠ 0)
    (hwf : RootSafe t) : RootSafe (clear_orphans (removeNodeAndEdges t i)) := by
  obtain ⟨hpres, hedges, hnext⟩ := hwf
  refine ⟨?_, ?_, ?_⟩
  · have h1 : lookupNode (clear_orphans (removeNodeAndEdges t i)) 0 =
        lookupNode (removeNodeAndEdges t i) 0 :=
      lookupNode_eq_of_nodes_filter rfl
        (fun x _ hx => by simp [hx, zero_mem_reachableFrom])
    have h2 : lookupNode (removeNodeAndEdges t i) 0 = lookupNode t 0 :=
      lookupNode_eq_of_nodes_filter rfl
        (fun x _ hx => by simp [hx, Ne.symm hi])
    unfold rootPresent at hpres ⊢
    rw [h1, h2]
    exact hpres
  · intro e he
    have he1 : e ∈ (removeNodeAndEdges t i).edges := (List.mem_filter.mp he).1
    have he2 : e ∈ t.edges := (List.mem_filter.mp he1).1
    exact hedges e he2
  · exact hnext

theorem rootSafe_remove_some {t : VirtualFileTree} {p : OsPath}
    {r : VirtualFileData × VirtualFileTree} (h : remove_file t p = some r)
    (hwf : RootSafe t) (hne : find_index t p ≠ some 0) : RootSafe r.2 := by
  unfold remove_file at h
  split at h
  · exact absurd h (by simp)
  · rename_i i hfi
    have hi : i ≠ 0 := fun hz => hne (hz ▸ hfi)
    split at h
    · exact absurd h (by simp)
    · cases h
      exact rootSafe_removed_tree hi hwf

theorem rootSafe_update_child {t : VirtualFileTree} {parent : Nat}
    {w : VirtualFileData} (hwf : RootSafe t) :
    RootSafe (update_child t parent w).2 := by
  obtain ⟨hpres, hedges, hnext⟩ := hwf
  unfold update_child
  split
  · exact ⟨hpres, hedges, hnext⟩
  · rename_i base hfn
    split
    · rename_i old het
      have hold : old ≠ 0 := by
        rcases edgeTarget_mem het with ⟨e, hmem, hej⟩
        exact hej ▸ hedges e hmem
      refine ⟨?_, hedges, hnext⟩
      unfold rootPresent lookupNode at hpres ⊢
      simp only
      rw [find?_replaceAt_ne (Ne.symm hold)]
      exact hpres
    · refine ⟨?_, ?_, ?_⟩
      · have hzero : (t.nextId == 0) = false := by
          simp [Nat.pos_iff_ne_zero.mp hnext]
        unfold rootPresent lookupNode at hpres ⊢
        simp only [List.find?_cons, hzero]
        exact hpres
      · intro e he
        simp only [List.mem_cons] at he
        rcases he with he | he
        · rw [he]
          exact Nat.pos_iff_ne_zero.mp hnext
        · exact hedges e he
      · exact Nat.succ_pos _

theorem rootSafe_move {t : VirtualFileTree} {s d : OsPath} (hwf : RootSafe t)
    (hne : find_index t s ≠ some 0) : RootSafe (move_file t s d).2 := by
  cases hr : remove_file t s with
  | none =>
    unfold move_file
    rw [hr]
    exact hwf
  | some r =>
    obtain ⟨dd, t1⟩ := r
    have hr2 : RootSafe t1 := rootSafe_remove_some hr hwf hne
    unfold move_file
    rw [hr]
    dsimp only
    cases hp : d.parent with
    | none => exact hr2
    | some par =>
      dsimp only
      cases hfi : find_index t1 par with
      | none => exact hr2
      | some np => exact rootSafe_update_child hr2

theorem rootSafe_applyOp {t : VirtualFileTree} (op : TreeOp) (hwf : RootSafe t)
    (hsrc : op.src.components ≠ []) : RootSafe (applyOp t op) := by
  cases op with
  | removeOp p =>
    have hne := find_index_ne_root hwf (p := p) (by simpa [TreeOp.src] using hsrc)
    simp only [applyOp]
    cases hr : remove_file t p with
    | none => exact hwf
    | some r =>
      obtain ⟨dd, t1⟩ := r
      exact rootSafe_remove_some hr hwf hne
  | moveOp s d =>
    have hne := find_index_ne_root hwf (p := s) (by simpa [TreeOp.src] using hsrc)
    simp only [applyOp]
    exact rootSafe_move hwf hne

theorem find_index_rootPath (t : VirtualFileTree) :
    find_index t rootPath = some 0 := rfl

/-- Concrete real root directory `/base` used by the witnesses below. -/
def basePath : OsPath := ⟨true, [[98, 97, 115, 101]]⟩

/-- The tree `VirtualFileTree::new("/base")` builds. -/
def demoRoot : VirtualFileTree :=
  { nodes := [(0, { path := basePath, kind := FileType.Directory, is_root := true })],
    edges := [], nextId := 1, handles := [] }

/-- The virtual path `/x`. -/
def pathX : OsPath := ⟨true, [[120]]⟩

/-- The virtual path `/y`. -/
def pathY : OsPath := ⟨true, [[121]]⟩

/-- The real path `/base/x`. -/
def realX : OsPath := ⟨true, [[98, 97, 115, 101], [120]]⟩

/-- Claim C1 (amended): for every well-formed tree (root live at index 0
with its `is_root` flag, no edge targeting the root, fresh indices positive
— all true of every tree the public constructors build) and every sequence
of `remove_file` and `move_file` calls in which no removed path is the root
path `/` or the empty path (equivalently: every `remove_file` argument and
`move_file` source has at least one component), the root node is never
removed and never reparented: afterwards it is still live at index 0 with
`is_root = true`, still no edge targets it, and `find_index` of the root
path still resolves to it. The restriction is forced by
`c1_root_removal_counterexample`: a call whose path argument is `/` itself
does remove the root. -/
theorem c1_root_safety (t : VirtualFileTree) (ops : List TreeOp)
    (hwf : RootSafe t) (hops : ∀ op ∈ ops, (TreeOp.src op).components ≠ []) :
    RootSafe (applyOps t ops) ∧ find_index (applyOps t ops) rootPath = some 0 := by
  refine ⟨?_, find_index_rootPath _⟩
  induction ops generalizing t with
  | nil => exact hwf
  | cons op ops ih =>
    exact ih (applyOp t op)
      (rootSafe_applyOp op hwf (hops op (List.mem_cons_self op ops)))
      (fun o ho => hops o (List.mem_cons_of_mem op ho))

/-- Claim C1 witness: a concrete well-formed tree and call sequence for
which the amended root-safety statement evaluates. -/
theorem c1_root_safety_witness :
    RootSafe (applyOps demoRoot [TreeOp.removeOp pathX, TreeOp.moveOp pathX pathY]) ∧
    find_index (applyOps demoRoot [TreeOp.removeOp pathX, TreeOp.moveOp pathX pathY])
      rootPath = some 0 :=
  c1_root_safety demoRoot [TreeOp.removeOp pathX, TreeOp.moveOp pathX pathY]
    (by decide) (by decide)

/-- Claim C1 counterexample: `find_index` resolves the root path `/` to the
root index, so `remove_file("/")` removes the root node itself (orphan
pruning then empties the graph), leaving a tree whose root is gone —
refuting the claim for sequences that include a call on the root path. -/
theorem c1_root_removal_counterexample :
    remove_file demoRoot rootPath =
      some ({ path := basePath, kind := FileType.Directory, is_root := true },
            { nodes := [], edges := [], nextId := 1, handles := [] }) ∧
    rootPresent (applyOps demoRoot [TreeOp.removeOp rootPath]) = false := by
  decide

/-- The tree `/base` + one mapped file `/x` backed by `/base/x` (node 1). -/
def demoTreeX : VirtualFileTree :=
  { nodes := [(1, { path := realX, kind := FileType.RegularFile, is_root := false }),
              (0, { path := basePath, kind := FileType.Directory, is_root := true })],
    edges := [(0, [120], 1)], nextId := 2, handles := [] }

/-- Claim C2 (evaluation of the code at the failing input): on the tree
with the single mapped file `/x`, `move_file("/x", "/y")` succeeds, but
because `update_child` computes the new edge label from the folded basename
of the node's *real* path (`x`) instead of the final component of the
destination (`y`), afterwards `find_index("/y")` fails and `/x` still
resolves (to the re-added copy of the node, index 2). The claim — and spec
scenario S3 — require `find_index("/y")` to return the moved node. -/
theorem c2_move_file_relabels_with_real_basename :
    map_file demoRoot pathX realX FileType.RegularFile = some demoTreeX ∧
    (move_file demoTreeX pathX pathY).1 = true ∧
    find_index (move_file demoTreeX pathX pathY).2 pathY = none ∧
    find_index (move_file demoTreeX pathX pathY).2 pathX = some 2 := by
  decide

/-- One byte is obtained from another by at most an ASCII case change:
either the bytes are equal, or they are the upper- and lowercase forms of
the same 7-bit letter. -/
def caseToggle (a b : Nat) : Bool :=
  (a == b) || (decide (65 ≤ a) && decide (a ≤ 90) && (b == a + 32))
    || (decide (97 ≤ a) && decide (a ≤ 122) && (a == b + 32))

/-- Componentwise lifting of `caseToggle`. -/
def caseEqComp : Component → Component → Bool
  | [], [] => true
  | a :: as, b :: bs => caseToggle a b && caseEqComp as bs
  | _, _ => false

/-- Path lifting of `caseEqComp`: the second component list is obtained
from the first by changing only the case of ASCII letters. -/
def caseEqComps : List Component → List Component → Bool
  | [], [] => true
  | a :: as, b :: bs => caseEqComp a b && caseEqComps as bs
  | _, _ => false

theorem foldByte_of_caseToggle {a b : Nat} (h : caseToggle a b = true) :
    foldByte b = foldByte a := by
  simp only [caseToggle, Bool.or_eq_true, Bool.and_eq_true, beq_iff_eq,
    decide_eq_true_eq] at h
  rcases h with (h | ⟨⟨h1, h2⟩, h3⟩) | ⟨⟨h1, h2⟩, h3⟩
  · rw [h]
  · subst h3
    unfold foldByte
    split <;> split <;> omega
  · subst h3
    unfold foldByte
    split <;> split <;> omega

theorem foldComponent_of_caseEqComp {c d : Component}
    (h : caseEqComp c d = true) : foldComponent d = foldComponent c := by
  induction c generalizing d with
  | nil =>
    cases d with
    | nil => rfl
    | cons b bs => exact absurd h (by simp [caseEqComp])
  | cons a as ih =>
    cases d with
    | nil => exact absurd h (by simp [caseEqComp])
    | cons b bs =>
      simp only [caseEqComp, Bool.and_eq_true] at h
      have htail := ih h.2
      simp only [foldComponent, List.map_cons] at htail ⊢
      rw [foldByte_of_caseToggle h.1, htail]

theorem foldComps_of_caseEqComps {cs ds : List Component}
    (h : caseEqComps cs ds = true) :
    ds.map foldComponent = cs.map foldComponent := by
  induction cs generalizing ds with
  | nil =>
    cases ds with
    | nil => rfl
    | cons b bs => exact absurd h (by simp [caseEqComps])
  | cons a as ih =>
    cases ds with
    | nil => exact absurd h (by simp [caseEqComps])
    | cons b bs =>
      simp only [caseEqComps, Bool.and_eq_true] at h
      simp only [List.map_cons]
      rw [foldComponent_of_caseEqComp h.1, ih h.2]

/-- Claim C7: for every path `p` that resolves in the tree and every path
`q` obtained from `p` by changing only the case of 7-bit ASCII letters in
its components, `find_index` returns the same node for `q` as for `p`, and
hence `translate_path` agrees as well. This holds because `find_index`
folds every lookup component with `foldByte`, under which a case change of
an ASCII letter is invisible. -/
theorem c7_case_insensitive_lookup (t : VirtualFileTree) (p q : OsPath)
    (_hres : (find_index t p).isSome = true)
    (hcase : caseEqComps p.components q.components = true) :
    find_index t q = find_index t p ∧
    translate_path t q = translate_path t p := by
  have hmap : q.components.map foldComponent = p.components.map foldComponent :=
    foldComps_of_caseEqComps hcase
  have hfi : find_index t q = find_index t p := by
    unfold find_index
    rw [hmap]
  exact ⟨hfi, by unfold translate_path; rw [hfi]⟩

/-- The virtual path `/X` (uppercase variant of `/x`). -/
def pathXUpper : OsPath := ⟨true, [[88]]⟩

/-- Claim C7 witness: on the concrete tree with the mapped file `/x`, the
uppercase query `/X` resolves to the same node as `/x`. -/
theorem c7_case_insensitive_lookup_witness :
    find_index demoTreeX pathXUpper = find_index demoTreeX pathX ∧
    translate_path demoTreeX pathXUpper = translate_path demoTreeX pathX :=
  c7_case_insensitive_lookup demoTreeX pathX pathXUpper (by decide) (by decide)

/-- Claim C8: `VirtualFileTree::new(real_root)` fails (the source asserts
`real_root.is_dir()`, so on a non-directory it never returns a tree —
modeled as `none`) whenever the root is not a directory, and otherwise
produces the tree with the single root node whose real path is `real_root`,
whose kind is Directory, and whose `is_root` flag is true. -/
theorem c8_tree_new (p : OsPath) :
    tree_new p false = none ∧
    tree_new p true =
      some { nodes := [(0, { path := p, kind := FileType.Directory, is_root := true })],
             edges := [], nextId := 1, handles := [] } :=
  ⟨rfl, rfl⟩

/-- The real path `/base/d`. -/
def realD : OsPath := ⟨true, [[98, 97, 115, 101], [100]]⟩

/-- The virtual path `/d`. -/
def pathD : OsPath := ⟨true, [[100]]⟩

/-- The tree `/base` + one mapped directory `/d` backed by `/base/d`. -/
def demoTreeDir : VirtualFileTree :=
  { nodes := [(1, { path := realD, kind := FileType.Directory, is_root := false }),
              (0, { path := basePath, kind := FileType.Directory, is_root := true })],
    edges := [(0, [100], 1)], nextId := 2, handles := [] }

/-- Claim C3 (amended): for the `chmod`, `chown` and `utimens` callbacks
invoked by path, a path naming a directory in the VFT is rejected with
not-supported before any syscall is issued; `truncate` performs no such
directory check, so for it the dispatch never yields the not-supported
rejection and a resolving directory path proceeds to the underlying
syscall (see `c3_truncate_counterexample`). -/
theorem c3_dir_attr_rejection (t : VirtualFileTree) (sh : OsPath → Bool)
    (p : OsPath) (hdir : is_dir t p = true) :
    chmod_decision t sh p none = PathAction.notSupported ∧
    chown_decision t sh p none = PathAction.notSupported ∧
    utimens_decision t sh p none = PathAction.notSupported ∧
    truncate_decision t sh p none ≠ PathAction.notSupported := by
  refine ⟨?_, ?_, ?_, ?_⟩
  · unfold chmod_decision
    rw [if_pos hdir]
  · unfold chown_decision
    rw [if_pos hdir]
  · unfold utimens_decision
    rw [if_pos hdir]
  · unfold truncate_decision
    dsimp only
    cases translate_path t p with
    | none => simp
    | some real =>
      dsimp only
      split <;> simp

/-- Claim C3 witness: the concrete tree with the mapped directory `/d`
evaluates the amended dispatch statement. -/
theorem c3_dir_attr_rejection_witness :
    chmod_decision demoTreeDir (fun _ => false) pathD none = PathAction.notSupported ∧
    chown_decision demoTreeDir (fun _ => false) pathD none = PathAction.notSupported ∧
    utimens_decision demoTreeDir (fun _ => false) pathD none = PathAction.notSupported ∧
    truncate_decision demoTreeDir (fun _ => false) pathD none ≠ PathAction.notSupported :=
  c3_dir_attr_rejection demoTreeDir (fun _ => false) pathD (by decide)

/-- Claim C3 counterexample: `/d` names a directory in the VFT, yet the
`truncate` callback (which the claim includes) does not return
not-supported — it proceeds to the underlying `truncate64` syscall on the
resolved real path `/base/d`. -/
theorem c3_truncate_counterexample :
    is_dir demoTreeDir pathD = true ∧
    truncate_decision demoTreeDir (fun _ => false) pathD none =
      PathAction.syscallPath realD := by
  decide

/-- Claim C4 (amended): what the handle table actually guarantees. A handle
inserted by `open_dir` records whatever node `find_index` resolved — of any
kind, not necessarily a directory, and `open_dir` succeeds on any resolving
path; `view_dir(h)` returns not-found exactly when `h` is absent from the
handle table (a live handle never yields not-found, whatever its target);
and `close_dir(h)` removes the handle, after which `view_dir(h)` returns
not-found. The original claim's directory guarantee is refuted by
`c4_nondir_handle_counterexample`. -/
theorem c4_handle_semantics :
    (∀ (t : VirtualFileTree) (h : Nat),
      view_dir t h = VfsResult.notFound ↔ lookupHandle t h = none) ∧
    (∀ (t : VirtualFileTree) (h : Nat),
      view_dir (close_dir t h) h = VfsResult.notFound) ∧
    (∀ (t t' : VirtualFileTree) (p : OsPath) (h h' : Nat),
      open_dir t p h = some (h', t') →
      h' = h ∧ ∃ dir, find_index t p = some dir ∧ lookupHandle t' h = some dir) := by
  refine ⟨?_, ?_, ?_⟩
  · intro t h
    cases hl : lookupHandle t h with
    | none =>
      unfold view_dir
      rw [hl]
      simp
    | some dir =>
      unfold view_dir
      rw [hl]
      dsimp only
      constructor
      · intro hv
        cases hent : entriesFor t (childrenOf t dir) <;> rw [hent] at hv <;> simp at hv
      · intro hnone
        simp at hnone
  · intro t h
    have hnone : lookupHandle (close_dir t h) h = none := by
      unfold lookupHandle close_dir
      dsimp only
      rw [List.find?_eq_none.mpr]
      · rfl
      · intro x hx
        have hxf := (List.mem_filter.mp hx).2
        simp only [Bool.not_eq_true'] at hxf
        simp [hxf]
    unfold view_dir
    rw [hnone]
  · intro t t' p h h' hopen
    unfold open_dir at hopen
    split at hopen
    · exact absurd hopen (by simp)
    · rename_i dir hfi
      split at hopen
      · exact absurd hopen (by simp)
      · cases hopen
        refine ⟨rfl, dir, hfi, ?_⟩
        simp [lookupHandle, List.find?_cons]

/-- The `demoTreeX` tree after `open_dir("/x")` handed out the handle 7. -/
def demoOpenFile : VirtualFileTree :=
  { nodes := [(1, { path := realX, kind := FileType.RegularFile, is_root := false }),
              (0, { path := basePath, kind := FileType.Directory, is_root := true })],
    edges := [(0, [120], 1)], nextId := 2, handles := [(7, 1)] }

/-- Claim C4 witness: the amended handle statement evaluated on the
concrete tree with the opened file `/x` and handle 7. -/
theorem c4_handle_semantics_witness :
    7 = 7 ∧ ∃ dir, find_index demoTreeX pathX = some dir ∧
      lookupHandle demoOpenFile 7 = some dir :=
  c4_handle_semantics.2.2 demoTreeX demoOpenFile pathX 7 7 (by decide)

/-- Claim C4 counterexample: `open_dir` on the regular file `/x` succeeds
and records handle 7 for node 1, whose kind is RegularFile, not Directory —
a state reached by the public operations in which a live handle's target is
not a directory; moreover `view_dir` on that handle succeeds (with an empty
listing) rather than failing, refuting the claimed equivalence. -/
theorem c4_nondir_handle_counterexample :
    open_dir demoTreeX pathX 7 = some (7, demoOpenFile) ∧
    lookupHandle demoOpenFile 7 = some 1 ∧
    lookupNode demoOpenFile 1 =
      some { path := realX, kind := FileType.RegularFile, is_root := false } ∧
    FileType.RegularFile ≠ FileType.Directory ∧
    view_dir demoOpenFile 7 = VfsResult.entries [] := by
  decide

/-- The unresolvable virtual path `/b`. -/
def pathB : OsPath := ⟨true, [[98]]⟩

/-- The tree left after removing `/x` from `demoTreeX` (note the next fresh
index stays at 2). -/
def demoRootNextId2 : VirtualFileTree :=
  { nodes := [(0, { path := basePath, kind := FileType.Directory, is_root := true })],
    edges := [], nextId := 2, handles := [] }

/-- Claim C5 (amended): `apply_cache` drops exactly the entries whose
`is_valid` is false against the freshly built tree (the retained list is
the `is_valid` filter of the stored list, a sublist of it containing only
valid entries) and, provided every retained entry then applies
successfully, applies them in order and persists the filtered list, so the
cache file afterwards contains exactly the valid subset. When some retained
entry fails to apply, `apply_cache` instead returns the error without
persisting anything (see `c5_apply_cache_counterexample`). -/
theorem c5_apply_cache_filters_and_persists (t : VirtualFileTree)
    (l : List VirtualFileTransformation) (t' : VirtualFileTree)
    (hsucc : applyAll (l.filter (fun tr => tr.is_valid t)) t = some t') :
    apply_cache t (CacheFile.stored l) =
      some (t', CacheFile.stored (l.filter (fun tr => tr.is_valid t))) ∧
    (l.filter (fun tr => tr.is_valid t)).Sublist l ∧
    ∀ tr ∈ l.filter (fun tr => tr.is_valid t), tr.is_valid t = true := by
  refine ⟨?_, List.filter_sublist l, fun tr htr => (List.mem_filter.mp htr).2⟩
  unfold apply_cache apply_cache_load read_cache
  dsimp only
  rw [hsucc]

/-- Claim C5 witness: a stored list with one valid and one invalid entry,
against the concrete tree with the mapped file `/x`: the invalid deletion
of `/b` is dropped, the valid deletion of `/x` is applied, and exactly the
filtered singleton list is persisted. -/
theorem c5_apply_cache_witness :
    apply_cache demoTreeX
      (CacheFile.stored [VirtualFileTransformation.Deletion pathX,
        VirtualFileTransformation.Deletion pathB]) =
      some (demoRootNextId2, CacheFile.stored
        ([VirtualFileTransformation.Deletion pathX,
          VirtualFileTransformation.Deletion pathB].filter
            (fun tr => tr.is_valid demoTreeX))) ∧
    ([VirtualFileTransformation.Deletion pathX,
      VirtualFileTransformation.Deletion pathB].filter
        (fun tr => tr.is_valid demoTreeX)).Sublist
      [VirtualFileTransformation.Deletion pathX,
       VirtualFileTransformation.Deletion pathB] ∧
    ∀ tr ∈ [VirtualFileTransformation.Deletion pathX,
        VirtualFileTransformation.Deletion pathB].filter
          (fun tr => tr.is_valid demoTreeX), tr.is_valid demoTreeX = true :=
  c5_apply_cache_filters_and_persists demoTreeX
    [VirtualFileTransformation.Deletion pathX,
     VirtualFileTransformation.Deletion pathB] demoRootNextId2 (by decide)

/-- Claim C5 counterexample: with the deletion of `/x` stored twice, both
copies are valid against the fresh tree (validity is checked for all
entries against the pre-application state), so both are retained; applying
the second copy then fails with not-found, and `apply_cache` returns the
error without persisting the filtered list — refuting the claim that for
every stored list the filtered list is applied and persisted. -/
theorem c5_apply_cache_counterexample :
    (VirtualFileTransformation.Deletion pathX).is_valid demoTreeX = true ∧
    apply_cache demoTreeX
      (CacheFile.stored [VirtualFileTransformation.Deletion pathX,
        VirtualFileTransformation.Deletion pathX]) = none := by
  decide

/-- Claim C6 (amended): `apply_cache` treats an absent cache file and an
undecodable one identically, loading both as the empty list and
proceeding; `transform`, the per-mutation reader, recovers only the absent
file as the empty list and propagates the decode error of an undecodable
file, failing instead of proceeding
(see `c6_transform_corrupt_counterexample`). -/
theorem c6_cache_readers (t t' : VirtualFileTree)
    (tr : VirtualFileTransformation) :
    apply_cache_load CacheFile.absent = ReadResult.success [] ∧
    apply_cache_load CacheFile.corrupt = ReadResult.success [] ∧
    transform_load CacheFile.absent = ReadResult.success [] ∧
    transform_load CacheFile.corrupt = ReadResult.failure ReadErr.invalidData ∧
    (tr.apply t = (true, t') →
      transform t CacheFile.absent tr = some (t', CacheFile.stored [tr])) ∧
    transform t CacheFile.corrupt tr = none := by
  refine ⟨rfl, rfl, rfl, rfl, ?_, ?_⟩
  · intro happ
    simp [transform, happ, transform_load, read_cache]
  · rcases happ : tr.apply t with ⟨b, t2⟩
    cases b
    · simp [transform, happ]
    · simp [transform, happ, transform_load, read_cache]

/-- Claim C6 witness: the successful `transform` on an absent cache file,
with the concrete deletion of `/x` on the tree that contains it. -/
theorem c6_cache_readers_witness :
    transform demoTreeX CacheFile.absent
      (VirtualFileTransformation.Deletion pathX) =
      some (demoRootNextId2, CacheFile.stored
        [VirtualFileTransformation.Deletion pathX]) :=
  (c6_cache_readers demoTreeX demoRootNextId2
    (VirtualFileTransformation.Deletion pathX)).2.2.2.2.1 (by decide)

/-- Claim C6 counterexample: on an undecodable cache file, the startup
reader `apply_cache` proceeds exactly as on an absent file, but the
per-mutation reader `transform` fails instead of proceeding with an empty
list — the two readers do not treat the undecodable file identically. -/
theorem c6_transform_corrupt_counterexample :
    transform demoTreeX CacheFile.corrupt
      (VirtualFileTransformation.Deletion pathX) = none ∧
    transform demoTreeX CacheFile.absent
      (VirtualFileTransformation.Deletion pathX) =
      some (demoRootNextId2, CacheFile.stored
        [VirtualFileTransformation.Deletion pathX]) ∧
    apply_cache demoTreeX CacheFile.corrupt =
      apply_cache demoTreeX CacheFile.absent := by
  decide

/-- Claim C9: `ModcrabFS::new` returns the empty-overlay error whenever the
overlay list is empty, and returns the self-mount error whenever the
canonicalized mountpoint equals the canonicalized surface (the last overlay
entry); both exits happen before any filesystem value is constructed, so no
success value is produced. -/
theorem c9_new_rejects (env : NewEnv) (mnt : OsPath) (overlay : List OsPath) :
    (overlay = [] →
      modcrabfs_new env mnt overlay = NewResult.failure NewErr.emptyOverlay) ∧
    (∀ raw s, overlay.getLast? = some raw → env.canon raw = some s →
      env.canon mnt = some s →
      modcrabfs_new env mnt overlay = NewResult.failure NewErr.selfMount) := by
  constructor
  · intro h
    subst h
    rfl
  · intro raw s hlast hraw hmnt
    unfold modcrabfs_new
    rw [hlast]
    dsimp only
    rw [hraw]
    dsimp only
    rw [hmnt]
    dsimp only
    rw [if_pos rfl]

/-- An all-succeeding construction environment whose canonicalization is
the identity. -/
def idEnv : NewEnv :=
  { canon := fun p => some p, isDirQ := fun _ => true, canonCacheOk := true,
    shadowOk := true, readLayer := fun _ t => some t, file := CacheFile.absent }

/-- Claim C9 witness: the two rejections evaluated concretely — an empty
overlay, and a mountpoint equal to the single (hence last) overlay entry. -/
theorem c9_new_rejects_witness :
    modcrabfs_new idEnv basePath [] = NewResult.failure NewErr.emptyOverlay ∧
    modcrabfs_new idEnv basePath [basePath] = NewResult.failure NewErr.selfMount :=
  ⟨(c9_new_rejects idEnv basePath []).1 rfl,
   (c9_new_rejects idEnv basePath [basePath]).2 basePath basePath rfl rfl rfl⟩

theorem find?_replaceAt_self {nodes : List (Nat × VirtualFileData)} {old : Nat}
    {w : VirtualFileData} {x : Nat × VirtualFileData}
    (hfind : nodes.find? (fun q => q.1 == old) = some x) :
    (replaceAt nodes old w).find? (fun q => q.1 == old) = some (x.1, w) := by
  unfold replaceAt
  rw [find?_map_keyed _ _ _ (fun q => by by_cases hq : q.1 = old <;> simp [hq]),
    hfind]
  have hx : x.1 = old := by
    have := List.find?_some hfind
    simpa using this
  simp [hx]

/-- Claim C10: when `update_child` installs a payload whose folded basename
matches an existing edge label of the parent, it returns the existing
child's index and overwrites only that child's payload in place: the edge
list (hence every outgoing edge of the child) and the fresh-index counter
are untouched, every other node's payload is untouched, `find_index` is
unchanged for every query path, and `translate_path` is unchanged for every
path resolving to any node other than the shadowed child. Mapping a later
overlay layer therefore merges with — rather than discards — the subtree
contributed by earlier layers. -/
theorem c10_shadow_in_place (t : VirtualFileTree) (parent old : Nat)
    (w : VirtualFileData) (base : Component) (dOld : VirtualFileData)
    (hbase : w.path.fileName = some base)
    (htgt : edgeTarget t.edges parent (foldComponent base) = some old)
    (hold : lookupNode t old = some dOld) :
    (update_child t parent w).1 = old ∧
    (update_child t parent w).2.edges = t.edges ∧
    (update_child t parent w).2.nextId = t.nextId ∧
    lookupNode (update_child t parent w).2 old = some w ∧
    (∀ n, n ≠ old → lookupNode (update_child t parent w).2 n = lookupNode t n) ∧
    (∀ q, find_index (update_child t parent w).2 q = find_index t q) ∧
    (∀ q n, find_index t q = some n → n ≠ old →
      translate_path (update_child t parent w).2 q = translate_path t q) := by
  have hred : update_child t parent w =
      (old, { t with nodes := replaceAt t.nodes old w }) := by
    unfold update_child
    rw [hbase]
    dsimp only
    rw [htgt]
  rw [hred]
  obtain ⟨x, hx, hxd⟩ := Option.map_eq_some'.mp hold
  have hfi : ∀ q, find_index { t with nodes := replaceAt t.nodes old w } q =
      find_index t q := fun q => rfl
  have hlook : ∀ n, n ≠ old →
      lookupNode { t with nodes := replaceAt t.nodes old w } n = lookupNode t n := by
    intro n hn
    unfold lookupNode
    dsimp only
    rw [find?_replaceAt_ne hn]
  refine ⟨rfl, rfl, rfl, ?_, hlook, hfi, ?_⟩
  · unfold lookupNode
    dsimp only
    rw [find?_replaceAt_self hx]
    rfl
  · intro q n hq hn
    unfold translate_path
    rw [hfi q, hq]
    show (lookupNode { t with nodes := replaceAt t.nodes old w } n).map
        (fun d => d.path) = (lookupNode t n).map (fun d => d.path)
    rw [hlook n hn]

/-- The real path `/base/x/y`. -/
def realXY : OsPath := ⟨true, [[98, 97, 115, 101], [120], [121]]⟩

/-- The real path `/top/X` of a later overlay layer shadowing `/x`. -/
def realTopX : OsPath := ⟨true, [[116, 111, 112], [88]]⟩

/-- The virtual path `/x/y`. -/
def pathXY : OsPath := ⟨true, [[120], [121]]⟩

/-- A tree with the directory `/x` (node 1) holding the file `/x/y`
(node 2). -/
def demoDeep : VirtualFileTree :=
  { nodes := [(2, { path := realXY, kind := FileType.RegularFile, is_root := false }),
              (1, { path := realX, kind := FileType.Directory, is_root := false }),
              (0, { path := basePath, kind := FileType.Directory, is_root := true })],
    edges := [(0, [120], 1), (1, [121], 2)], nextId := 3, handles := [] }

/-- Payload of a later layer's directory `/top/X`, whose folded basename
collides with the edge label of `/x`. -/
def wTopX : VirtualFileData :=
  { path := realTopX, kind := FileType.Directory, is_root := false }

/-- Claim C10 witness: shadowing `/x` with the later layer's `/top/X`
replaces node 1's payload in place, keeps all edges, and leaves the lookup
and translation of the grandchild `/x/y` unchanged. -/
theorem c10_shadow_in_place_witness :
    (update_child demoDeep 0 wTopX).1 = 1 ∧
    (update_child demoDeep 0 wTopX).2.edges = demoDeep.edges ∧
    lookupNode (update_child demoDeep 0 wTopX).2 1 = some wTopX ∧
    find_index (update_child demoDeep 0 wTopX).2 pathXY =
      find_index demoDeep pathXY ∧
    translate_path (update_child demoDeep 0 wTopX).2 pathXY =
      translate_path demoDeep pathXY := by
  have hmain := c10_shadow_in_place demoDeep 0 1 wTopX [88]
    { path := realX, kind := FileType.Directory, is_root := false }
    (by decide) (by decide) (by decide)
  exact ⟨hmain.1, hmain.2.1, hmain.2.2.2.1, hmain.2.2.2.2.2.1 pathXY,
    hmain.2.2.2.2.2.2 pathXY 2 (by decide) (by decide)⟩
